import Mathlib

/-!
A verification development for the Simply-FRP GUI client: a shallow
embedding of its configuration layer (`ConfigManager`) and of its
external-process supervisor (`FrpcManager`), with theorems about
validation, rendering, export, and the reconnect state machine.

Machine conventions: JavaScript numbers that hold ports are modelled as
`Int`; JavaScript string truthiness on a string `s` is `s ≠ ""`;
`Array.prototype.indexOf` is modelled with its `-1`-on-absence semantics.
-/

namespace FrpGui

/-- One tunnel definition, mirroring the `Tunnel` interface of the
configuration manager source. -/
structure Tunnel where
  id : String
  name : String
  type : String
  localIP : String
  localPort : Int
  remotePort : Int
  enabled : Bool
  deriving Repr, DecidableEq

/-- The application configuration, mirroring the `AppConfig` interface. -/
structure AppConfig where
  serverAddr : String
  serverPort : Int
  authToken : String
  remotePortMin : Int
  remotePortMax : Int
  autoStart : Bool
  tunnels : List Tunnel
  deriving Repr, DecidableEq

/-- Number of occurrences of `p` in a list of ports. -/
def countOcc (p : Int) : List Int → Nat
  | [] => 0
  | x :: xs => (if x = p then 1 else 0) + countOcc p xs

/-- `Array.prototype.indexOf`: the first index holding `a`, `-1` when absent. -/
def jsIndexOf (a : Int) : List Int → Int
  | [] => -1
  | x :: xs =>
    if x = a then 0
    else if jsIndexOf a xs = -1 then -1 else jsIndexOf a xs + 1

/-- The body of `remotePorts.filter((port, index) => remotePorts.indexOf(port) !== index)`:
`full` is the whole array, `i` the index of the head of the remaining suffix. -/
def dupFilterAux (full : List Int) : Int → List Int → List Int
  | _, [] => []
  | i, p :: rest =>
    if jsIndexOf p full ≠ i then p :: dupFilterAux full (i + 1) rest
    else dupFilterAux full (i + 1) rest

/-- `remotePorts.filter((port, index) => remotePorts.indexOf(port) !== index)`:
every occurrence of a value except its first one. -/
def duplicateList (l : List Int) : List Int :=
  dupFilterAux l 0 l

/-- `[...new Set(l)]`: drop repeated values, keeping first occurrences in order. -/
def firstDedup : List Int → List Int
  | [] => []
  | x :: xs => x :: (firstDedup xs).filter (fun y => y != x)

/-- `this.config.tunnels.map(t => t.remotePort)` — note: all tunnels,
with no filtering on the `enabled` flag. -/
def remotePorts (c : AppConfig) : List Int :=
  c.tunnels.map (fun t => t.remotePort)

/-- The duplicate-port error pushed by `validateConfig` (empty list when
no duplicate exists). -/
def dupPortErrors (c : AppConfig) : List String :=
  let duplicates := duplicateList (remotePorts c)
  if 0 < duplicates.length then
    ["Duplicate remote ports: " ++
      String.intercalate ", " ((firstDedup duplicates).map toString)]
  else []

/-- The per-tunnel range errors pushed by the final loop of `validateConfig`. -/
def tunnelRangeErrors (t : Tunnel) : List String :=
  (if t.localPort < 1 ∨ t.localPort > 65535 then
    ["Tunnel \"" ++ t.name ++ "\": local port must be between 1 and 65535"]
   else []) ++
  (if t.remotePort < 1 ∨ t.remotePort > 65535 then
    ["Tunnel \"" ++ t.name ++ "\": remote port must be between 1 and 65535"]
   else [])

/-- `ConfigManager.validateConfig`: collects all errors in push order and
returns `(errors.length === 0, errors)`. -/
def validateConfig (c : AppConfig) : Bool × List String :=
  let errors :=
    (if c.serverAddr = "" then ["Server address is required"] else []) ++
    (if c.serverPort = 0 ∨ c.serverPort < 1 ∨ c.serverPort > 65535 then
      ["Server port must be between 1 and 65535"] else []) ++
    (if c.authToken = "" then ["Auth token is required"] else []) ++
    dupPortErrors c ++
    c.tunnels.flatMap tunnelRangeErrors
  (errors.isEmpty, errors)

/-! ### Characterizing the duplicate-remote-port detection -/

theorem countOcc_pos_iff (p : Int) (l : List Int) : 0 < countOcc p l ↔ p ∈ l := by
  induction l with
  | nil => simp [countOcc]
  | cons x xs ih =>
    simp only [countOcc, List.mem_cons]
    by_cases h : x = p
    · subst h
      simp
    · have h2 : ¬ (p = x) := fun hh => h hh.symm
      simp [h, h2, ih]

theorem jsIndexOf_append_of_mem (p : Int) :
    ∀ pre suf : List Int, p ∈ pre → jsIndexOf p (pre ++ suf) = jsIndexOf p pre := by
  intro pre
  induction pre with
  | nil =>
    intro suf h
    simp at h
  | cons x xs ih =>
    intro suf h
    by_cases hx : x = p
    · simp [jsIndexOf, hx]
    · have hmem : p ∈ xs := by
        rcases List.mem_cons.mp h with h1 | h1
        · exact absurd h1.symm hx
        · exact h1
      simp [jsIndexOf, hx, ih suf hmem]

theorem jsIndexOf_bounds_of_mem (p : Int) :
    ∀ pre : List Int, p ∈ pre →
      0 ≤ jsIndexOf p pre ∧ jsIndexOf p pre < (pre.length : Int) := by
  intro pre
  induction pre with
  | nil =>
    intro h
    simp at h
  | cons x xs ih =>
    intro h
    by_cases hx : x = p
    · have hz : jsIndexOf p (x :: xs) = 0 := by simp [jsIndexOf, hx]
      rw [hz, List.length_cons]
      push_cast
      refine ⟨trivial, ?_⟩
      omega
    · have hmem : p ∈ xs := by
        rcases List.mem_cons.mp h with h1 | h1
        · exact absurd h1.symm hx
        · exact h1
      obtain ⟨h0, hlt⟩ := ih hmem
      have hne : ¬ jsIndexOf p xs = -1 := by omega
      have hs : jsIndexOf p (x :: xs) = jsIndexOf p xs + 1 := by
        simp [jsIndexOf, hx, hne]
      rw [hs, List.length_cons]
      push_cast
      refine ⟨?_, ?_⟩ <;> omega

theorem jsIndexOf_append_self_of_not_mem (p : Int) :
    ∀ pre suf : List Int, p ∉ pre →
      jsIndexOf p (pre ++ p :: suf) = (pre.length : Int) := by
  intro pre
  induction pre with
  | nil =>
    intro suf _
    simp [jsIndexOf]
  | cons x xs ih =>
    intro suf h
    have hx : ¬ x = p := by
      intro hh
      subst hh
      exact h (List.mem_cons_self x xs)
    have hmem : p ∉ xs := fun hm => h (List.mem_cons_of_mem x hm)
    have hrec := ih suf hmem
    have hne : ¬ jsIndexOf p (xs ++ p :: suf) = -1 := by
      rw [hrec]
      omega
    have hs : jsIndexOf p ((x :: xs) ++ p :: suf)
        = jsIndexOf p (xs ++ p :: suf) + 1 := by
      simp [jsIndexOf, hx, hne]
    rw [hs, hrec, List.length_cons]
    push_cast
    omega

theorem mem_dupFilterAux (p : Int) :
    ∀ suf pre : List Int,
      (p ∈ dupFilterAux (pre ++ suf) (pre.length : Int) suf ↔
        p ∈ suf ∧ (p ∈ pre ∨ 2 ≤ countOcc p suf)) := by
  intro suf
  induction suf with
  | nil =>
    intro pre
    simp [dupFilterAux]
  | cons q rest ih =>
    intro pre
    have hfull : pre ++ q :: rest = (pre ++ [q]) ++ rest := by simp
    have hlen : ((pre ++ [q]).length : Int) = (pre.length : Int) + 1 := by
      simp
    have hih := ih (pre ++ [q])
    rw [hlen] at hih
    rw [← hfull] at hih
    by_cases hq : q ∈ pre
    · have h1 : jsIndexOf q (pre ++ q :: rest) = jsIndexOf q pre :=
        jsIndexOf_append_of_mem q pre (q :: rest) hq
      have h2 := jsIndexOf_bounds_of_mem q pre hq
      have hcond : jsIndexOf q (pre ++ q :: rest) ≠ (pre.length : Int) := by
        rw [h1]
        omega
      have hstep : dupFilterAux (pre ++ q :: rest) (pre.length : Int) (q :: rest)
          = q :: dupFilterAux (pre ++ q :: rest) ((pre.length : Int) + 1) rest := by
        simp [dupFilterAux, hcond]
      rw [hstep]
      simp only [List.mem_cons, hih, List.mem_append, List.mem_singleton, countOcc]
      by_cases hpq : p = q
      · subst hpq
        simp [hq]
      · have hqp : ¬ q = p := fun hh => hpq hh.symm
        simp [hpq, hqp]
    · have hcond : jsIndexOf q (pre ++ q :: rest) = (pre.length : Int) :=
        jsIndexOf_append_self_of_not_mem q pre rest hq
      have hstep : dupFilterAux (pre ++ q :: rest) (pre.length : Int) (q :: rest)
          = dupFilterAux (pre ++ q :: rest) ((pre.length : Int) + 1) rest := by
        simp [dupFilterAux, hcond]
      rw [hstep, hih]
      simp only [List.mem_cons, List.mem_append, List.mem_singleton, countOcc]
      by_cases hpq : p = q
      · subst hpq
        have hc := countOcc_pos_iff p rest
        have hone : (if p = p then 1 else 0) = 1 := if_pos rfl
        rw [hone]
        constructor
        · rintro ⟨hr, -⟩
          have h1 : 0 < countOcc p rest := hc.mpr hr
          exact ⟨Or.inl rfl, Or.inr (by omega)⟩
        · rintro ⟨-, hpre | h2⟩
          · exact absurd hpre hq
          · have h1 : 0 < countOcc p rest := by omega
            exact ⟨hc.mp h1, Or.inl (Or.inr (Or.inl rfl))⟩
      · have hqp : ¬ q = p := fun hh => hpq hh.symm
        simp [hpq, hqp]

theorem mem_duplicateList (p : Int) (l : List Int) :
    p ∈ duplicateList l ↔ 2 ≤ countOcc p l := by
  have h := mem_dupFilterAux p l []
  simp only [List.nil_append, List.length_nil, Int.natCast_zero,
    List.not_mem_nil, false_or] at h
  rw [duplicateList]
  rw [h]
  constructor
  · exact fun hh => hh.2
  · intro h2
    have : 0 < countOcc p l := by omega
    exact ⟨(countOcc_pos_iff p l).mp this, h2⟩

theorem mem_firstDedup (p : Int) (l : List Int) : p ∈ firstDedup l ↔ p ∈ l := by
  induction l with
  | nil => simp [firstDedup]
  | cons x xs ih =>
    simp only [firstDedup, List.mem_cons, List.mem_filter, bne_iff_ne]
    by_cases hpx : p = x
    · simp [hpx]
    · simp [hpx, ih]

theorem nodup_firstDedup (l : List Int) : (firstDedup l).Nodup := by
  induction l with
  | nil => simp [firstDedup]
  | cons x xs ih =>
    rw [firstDedup, List.nodup_cons]
    refine ⟨?_, ih.filter _⟩
    simp [List.mem_filter]

theorem isEmpty_false_of_ne_nil {α : Type} {l : List α} (h : l ≠ []) :
    l.isEmpty = false := by
  cases l with
  | nil => exact absurd rfl h
  | cons a t => rfl

theorem validate_errors_ne_nil_of_dup (c : AppConfig)
    (h : dupPortErrors c ≠ []) : (validateConfig c).2 ≠ [] := by
  intro hnil
  rw [validateConfig] at hnil
  simp only [List.append_eq_nil] at hnil
  exact h hnil.1.2

/-! ### C1: duplicate remote ports and the enabled flag -/

/-- A concrete configuration whose two tunnels share remote port 6001,
but where only one of the two is enabled. -/
def cfgDupDisabled : AppConfig :=
  { serverAddr := "s", serverPort := 7000, authToken := "t",
    remotePortMin := 6000, remotePortMax := 6100, autoStart := false,
    tunnels :=
      [ { id := "1", name := "a", type := "tcp", localIP := "127.0.0.1",
          localPort := 80, remotePort := 6001, enabled := true },
        { id := "2", name := "b", type := "tcp", localIP := "127.0.0.1",
          localPort := 81, remotePort := 6001, enabled := false } ] }

/-- C1 counterexample: in `cfgDupDisabled` only a single enabled tunnel uses
remote port 6001 (the other user of 6001 is disabled), yet `validateConfig`
reports the duplicate-remote-port error — so a disabled tunnel's remote port
does contribute to the duplicate-port error, contradicting the claim. -/
theorem validateConfig_ignores_enabled_counterexample :
    ((cfgDupDisabled.tunnels.filter (fun t => t.enabled)).map
        (fun t => t.remotePort) = [6001])
    ∧ validateConfig cfgDupDisabled
      = (false, ["Duplicate remote ports: 6001"]) := by
  exact ⟨rfl, rfl⟩

/-- C1 (amended): `validateConfig` reports a duplicate-remote-port error
exactly when two or more tunnels — enabled **or disabled** — share the same
remote port; the rendered port list names each duplicated port value exactly
once (it lists precisely the ports occurring at least twice among all
tunnels, without repetition), and the presence of such a duplicate makes the
configuration invalid. -/
theorem validateConfig_duplicate_ports (c : AppConfig) :
    (∀ p, p ∈ firstDedup (duplicateList (remotePorts c)) ↔
        2 ≤ countOcc p (remotePorts c))
    ∧ (firstDedup (duplicateList (remotePorts c))).Nodup
    ∧ (dupPortErrors c ≠ [] ↔ ∃ p, 2 ≤ countOcc p (remotePorts c))
    ∧ ((∃ p, 2 ≤ countOcc p (remotePorts c)) → (validateConfig c).1 = false) := by
  have hmemdedup : ∀ p, p ∈ firstDedup (duplicateList (remotePorts c)) ↔
      2 ≤ countOcc p (remotePorts c) := by
    intro p
    rw [mem_firstDedup, mem_duplicateList]
  have hiff : dupPortErrors c ≠ [] ↔ ∃ p, 2 ≤ countOcc p (remotePorts c) := by
    constructor
    · intro h
      rw [dupPortErrors] at h
      by_cases hd : 0 < (duplicateList (remotePorts c)).length
      · have hne : duplicateList (remotePorts c) ≠ [] := by
          intro hnil
          rw [hnil] at hd
          simp at hd
        obtain ⟨p, hp⟩ := List.exists_mem_of_ne_nil _ hne
        exact ⟨p, (mem_duplicateList p _).mp hp⟩
      · simp only [hd, if_false] at h
        exact absurd rfl h
    · rintro ⟨p, hp⟩
      have hmem : p ∈ duplicateList (remotePorts c) :=
        (mem_duplicateList p _).mpr hp
      have hlen : 0 < (duplicateList (remotePorts c)).length :=
        List.length_pos.mpr (List.ne_nil_of_mem hmem)
      rw [dupPortErrors]
      simp [hlen]
  refine ⟨hmemdedup, nodup_firstDedup _, hiff, ?_⟩
  intro hex
  have hne : dupPortErrors c ≠ [] := hiff.mpr hex
  have h2 : (validateConfig c).2 ≠ [] := validate_errors_ne_nil_of_dup c hne
  have hfst : (validateConfig c).1 = (validateConfig c).2.isEmpty := rfl
  rw [hfst]
  exact isEmpty_false_of_ne_nil h2

/-! ### Rendering: frpc.toml generation and the redacted preview -/

/-- The render filter `t.enabled !== false`. -/
def isEnabled (t : Tunnel) : Bool := t.enabled != false

/-- The seven lines one enabled tunnel contributes to the rendered config. -/
def proxyBlockLines (t : Tunnel) : List String :=
  ["",
   "[[proxies]]",
   "name = \"" ++ t.name ++ "\"",
   "type = \"" ++ t.type ++ "\"",
   "localIP = \"" ++ t.localIP ++ "\"",
   "localPort = " ++ toString t.localPort,
   "remotePort = " ++ toString t.remotePort]

/-- The global-section lines pushed first by `generateFrpcConfig`. -/
def globalLines (c : AppConfig) : List String :=
  ["serverAddr = \"" ++ c.serverAddr ++ "\"",
   "serverPort = " ++ toString c.serverPort,
   "",
   "auth.method = \"token\"",
   "auth.token = \"" ++ c.authToken ++ "\""]

/-- `ConfigManager.generateFrpcConfig`: the global lines, then — pushed in a
loop over the enabled tunnels — one proxy block each, joined by newlines. -/
def generateFrpcConfig (c : AppConfig) : String :=
  let enabledTunnels := c.tunnels.filter isEnabled
  let lines := enabledTunnels.foldl (fun ls t => ls ++ proxyBlockLines t)
    (globalLines c)
  String.intercalate "\n" lines

/-- The twelve-bullet masking placeholder of the settings preview. -/
def maskPlaceholder : String := "••••••••••••"

/-- `generateConfigPreview` from the settings component: the same rendering,
with the auth token shown only when `showToken`, otherwise replaced by the
placeholder (or empty when the token is empty). -/
def generateConfigPreview (showToken : Bool) (c : AppConfig) : String :=
  let maskedToken :=
    if showToken then c.authToken
    else if c.authToken ≠ "" then maskPlaceholder else ""
  let headLines :=
    ["serverAddr = \"" ++ c.serverAddr ++ "\"",
     "serverPort = " ++ toString c.serverPort,
     "",
     "auth.method = \"token\"",
     "auth.token = \"" ++ maskedToken ++ "\""]
  let enabledTunnels := c.tunnels.filter isEnabled
  let lines := enabledTunnels.foldl (fun ls t => ls ++ proxyBlockLines t)
    headLines
  String.intercalate "\n" lines

theorem foldl_append_blocks (f : Tunnel → List String) :
    ∀ (ts : List Tunnel) (init : List String),
      ts.foldl (fun ls t => ls ++ f t) init = init ++ ts.flatMap f := by
  intro ts
  induction ts with
  | nil =>
    intro init
    simp
  | cons t rest ih =>
    intro init
    simp only [List.foldl_cons, List.flatMap_cons, ih, List.append_assoc]

theorem generateFrpcConfig_eq (c : AppConfig) :
    generateFrpcConfig c = String.intercalate "\n"
      (globalLines c ++ (c.tunnels.filter isEnabled).flatMap proxyBlockLines) := by
  rw [generateFrpcConfig]
  rw [foldl_append_blocks]

theorem append_head_ne_proxies (pre rest : String) (c : Char)
    (hpre : pre.data.head? = some c) (hc : c ≠ '[') :
    pre ++ rest ≠ "[[proxies]]" := by
  intro h
  have hd := congrArg String.data h
  rw [String.data_append] at hd
  cases hp : pre.data with
  | nil =>
    rw [hp] at hpre
    simp at hpre
  | cons a as =>
    rw [hp] at hpre
    have ha : a = c := by simpa using hpre
    rw [hp, List.cons_append] at hd
    have hrhs : ("[[proxies]]" : String).data = '[' :: ("[proxies]]" : String).data := rfl
    rw [hrhs] at hd
    have h1 : a = '[' := by
      injection hd with h1 _
    exact hc (ha.symm.trans h1)

theorem count_proxies_block (t : Tunnel) :
    (proxyBlockLines t).count "[[proxies]]" = 1 := by
  have hname : "name = \"" ++ t.name ++ "\"" ≠ "[[proxies]]" :=
    append_head_ne_proxies ("name = \"" ++ t.name) "\"" 'n' rfl (by decide)
  have htype : "type = \"" ++ t.type ++ "\"" ≠ "[[proxies]]" :=
    append_head_ne_proxies ("type = \"" ++ t.type) "\"" 't' rfl (by decide)
  have hip : "localIP = \"" ++ t.localIP ++ "\"" ≠ "[[proxies]]" :=
    append_head_ne_proxies ("localIP = \"" ++ t.localIP) "\"" 'l' rfl (by decide)
  have hlp : "localPort = " ++ toString t.localPort ≠ "[[proxies]]" :=
    append_head_ne_proxies "localPort = " (toString t.localPort) 'l' rfl
      (by decide)
  have hrp : "remotePort = " ++ toString t.remotePort ≠ "[[proxies]]" :=
    append_head_ne_proxies "remotePort = " (toString t.remotePort) 'r' rfl
      (by decide)
  simp [proxyBlockLines, List.count_cons, hname, htype, hip, hlp, hrp]

theorem count_proxies_flatMap (ts : List Tunnel) :
    (ts.flatMap proxyBlockLines).count "[[proxies]]" = ts.length := by
  induction ts with
  | nil => simp
  | cons t rest ih =>
    simp [List.flatMap_cons, List.count_append, ih, count_proxies_block]
    omega

/-- C5: the rendered configuration is the global section followed by exactly
one proxy block per enabled tunnel (one `[[proxies]]` header each), in input
list order; disabled tunnels contribute nothing anywhere — configurations
agreeing on the global fields and on their enabled-tunnel lists render to
identical text. -/
theorem generateFrpcConfig_structure (c : AppConfig) :
    (generateFrpcConfig c = String.intercalate "\n"
        (globalLines c ++ (c.tunnels.filter isEnabled).flatMap proxyBlockLines))
    ∧ (((c.tunnels.filter isEnabled).flatMap proxyBlockLines).count "[[proxies]]"
        = (c.tunnels.filter isEnabled).length)
    ∧ (∀ c' : AppConfig, c.serverAddr = c'.serverAddr →
        c.serverPort = c'.serverPort → c.authToken = c'.authToken →
        c.tunnels.filter isEnabled = c'.tunnels.filter isEnabled →
        generateFrpcConfig c = generateFrpcConfig c') := by
  refine ⟨generateFrpcConfig_eq c, count_proxies_flatMap _, ?_⟩
  intro c' h1 h2 h3 h4
  have hg : globalLines c = globalLines c' := by
    rw [globalLines, globalLines, h1, h2, h3]
  rw [generateFrpcConfig_eq c, generateFrpcConfig_eq c', hg, h4]

/-! ### C6: the redacted preview and the auth secret -/

/-- Does the character list start with the given needle list. -/
def charsStartsWith : List Char → List Char → Bool
  | _, [] => true
  | [], _ :: _ => false
  | h :: hs, n :: ns => h == n && charsStartsWith hs ns

/-- Does the character list contain the needle list as a contiguous run. -/
def charsContains : List Char → List Char → Bool
  | [], needle => charsStartsWith [] needle
  | h :: t, needle => charsStartsWith (h :: t) needle || charsContains t needle

/-- `hay.includes(needle)` on strings. -/
def strIncludes (hay needle : String) : Bool :=
  charsContains hay.data needle.data

/-- A configuration whose server address happens to equal its auth secret. -/
def cfgTokenLeak : AppConfig :=
  { serverAddr := "topsecret", serverPort := 7000, authToken := "topsecret",
    remotePortMin := 6000, remotePortMax := 6100, autoStart := false,
    tunnels := [] }

/-- C6 counterexample: the auth secret of `cfgTokenLeak` is non-empty, yet
the redacted preview contains the literal secret — it appears verbatim inside
the serverAddr line, because the address coincides with the secret. "Never
contains the literal auth secret" is therefore false as stated. -/
theorem preview_contains_secret_counterexample :
    (cfgTokenLeak.authToken == "") = false
    ∧ strIncludes (generateConfigPreview false cfgTokenLeak)
        cfgTokenLeak.authToken = true := by
  exact ⟨rfl, rfl⟩

/-- The redacted preview equals the authoritative rendering with the auth
token field swapped for the placeholder (non-empty token) or for the empty
string (empty token). -/
theorem preview_eq_masked_render (c : AppConfig) :
    generateConfigPreview false c
      = generateFrpcConfig
          { c with authToken := if c.authToken ≠ "" then maskPlaceholder else "" } := by
  rfl

/-- C6 (amended): the auth-token line of the redacted preview shows the
masking placeholder when a secret is present and is empty otherwise, and
every other field is rendered verbatim: the preview is exactly the
authoritative rendering applied to the configuration with its token replaced
by the mask. Consequently the preview depends on the secret only through its
emptiness — any two non-empty secrets yield identical previews — and the
secret's text can occur in the preview only where other fields' rendered text
happens to coincide with it. -/
theorem generateConfigPreview_masks_token (c : AppConfig) :
    (generateConfigPreview false c
      = generateFrpcConfig
          { c with authToken := if c.authToken ≠ "" then maskPlaceholder else "" })
    ∧ (∀ t1 t2 : String, t1 ≠ "" → t2 ≠ "" →
        generateConfigPreview false { c with authToken := t1 }
          = generateConfigPreview false { c with authToken := t2 }) := by
  refine ⟨preview_eq_masked_render c, ?_⟩
  intro t1 t2 h1 h2
  have e1 := preview_eq_masked_render { c with authToken := t1 }
  have e2 := preview_eq_masked_render { c with authToken := t2 }
  simp only [if_pos h1] at e1
  simp only [if_pos h2] at e2
  rw [e1, e2]

/-! ### C10: the exported configuration -/

/-- JSON string escaping (`JSON.stringify`): quote and backslash. -/
def jsonEscapeChar (ch : Char) : String :=
  if ch = '"' then "\\\"" else if ch = '\\' then "\\\\" else String.singleton ch

def jsonEscape (s : String) : String :=
  String.join (s.data.map jsonEscapeChar)

def jsonStr (s : String) : String := "\"" ++ jsonEscape s ++ "\""

def jsonBool (b : Bool) : String := if b then "true" else "false"

/-- One tunnel object as `JSON.stringify(data, null, 2)` lays it out inside
the tunnels array. -/
def tunnelJsonLines (t : Tunnel) : List String :=
  ["    \x7b",
   "      \"id\": " ++ jsonStr t.id ++ ",",
   "      \"name\": " ++ jsonStr t.name ++ ",",
   "      \"type\": " ++ jsonStr t.type ++ ",",
   "      \"localIP\": " ++ jsonStr t.localIP ++ ",",
   "      \"localPort\": " ++ toString t.localPort ++ ",",
   "      \"remotePort\": " ++ toString t.remotePort ++ ",",
   "      \"enabled\": " ++ jsonBool t.enabled,
   "    \x7d"]

def tunnelsJson (ts : List Tunnel) : String :=
  if ts.isEmpty then "[]"
  else "[\n" ++ String.intercalate ",\n"
      (ts.map (fun t => String.intercalate "\n" (tunnelJsonLines t)))
    ++ "\n  ]"

/-- `ConfigManager.exportConfig`: `JSON.stringify` (two-space indent) of the
export object, which is built from exactly six fields — serverAddr,
serverPort, remotePortMin, remotePortMax, autoStart, tunnels; the auth token
is deliberately left out. -/
def exportConfig (c : AppConfig) : String :=
  "\x7b\n" ++
  "  \"serverAddr\": " ++ jsonStr c.serverAddr ++ ",\n" ++
  "  \"serverPort\": " ++ toString c.serverPort ++ ",\n" ++
  "  \"remotePortMin\": " ++ toString c.remotePortMin ++ ",\n" ++
  "  \"remotePortMax\": " ++ toString c.remotePortMax ++ ",\n" ++
  "  \"autoStart\": " ++ jsonBool c.autoStart ++ ",\n" ++
  "  \"tunnels\": " ++ tunnelsJson c.tunnels ++ "\n" ++
  "\x7d"

/-- C10: the exported string never depends on the auth token — two
configurations that differ only in `authToken` export identical strings
(the export object is built from exactly the six non-secret fields, as the
definition of `exportConfig` mirrors from the source). -/
theorem exportConfig_token_independent (c : AppConfig) (t : String) :
    exportConfig { c with authToken := t } = exportConfig c := rfl

/-! ### The process supervisor (FrpcManager) -/

/-- An event the supervisor emits: log lines, error reports, status changes,
and desktop alerts (`showNotification` calls). -/
inductive Event where
  | log (line : String)
  | error (message : String)
  | status (s : String)
  | notify (title body : String)
  deriving Repr, DecidableEq

/-- The supervisor's mutable fields: process-handle presence, last error,
auto-reconnect switch, attempt counter, pending-retry-timer presence, and
the intentional-stop flag. -/
structure FrpcState where
  processActive : Bool
  lastError : Option String
  autoReconnect : Bool
  reconnectAttempts : Nat
  reconnectTimerPending : Bool
  intentionallyStopped : Bool
  deriving Repr, DecidableEq

/-- The field initializers of `FrpcManager`. -/
def initialState : FrpcState :=
  { processActive := false, lastError := none, autoReconnect := true,
    reconnectAttempts := 0, reconnectTimerPending := false,
    intentionallyStopped := false }

def maxReconnectAttempts : Nat := 5

def reconnectDelay : Nat := 5000

/-- `FrpcManager.handleDisconnect`: returns the state after the call, the
events emitted, and the delay of the retry it schedules (`none` when no
retry is scheduled). -/
def handleDisconnect (st : FrpcState) : FrpcState × List Event × Option Nat :=
  if st.intentionallyStopped || !st.autoReconnect then (st, [], none)
  else if maxReconnectAttempts ≤ st.reconnectAttempts then
    (st,
     [Event.log ("[GUI] Max reconnect attempts ("
        ++ toString maxReconnectAttempts ++ ") reached"),
      Event.notify "FRP Reconnect Failed" "Max reconnection attempts reached"],
     none)
  else
    let attempts := st.reconnectAttempts + 1
    let delay := reconnectDelay * attempts
    ({ st with reconnectAttempts := attempts, reconnectTimerPending := true },
     [Event.log ("[GUI] Attempting reconnect in " ++ toString (delay / 1000)
        ++ "s (attempt " ++ toString attempts ++ "/"
        ++ toString maxReconnectAttempts ++ ")")],
     some delay)

/-- The `process.on('error')` handler of `start` — the spawn-failure path:
it records the error, drops the process handle, reports stopped, and then
invokes `handleDisconnect`. -/
def onProcessError (st : FrpcState) (message : String) :
    FrpcState × List Event × Option Nat :=
  let msg := "Failed to start frpc: " ++ message
  let st1 := { st with lastError := some msg, processActive := false }
  let r := handleDisconnect st1
  (r.1, Event.error msg :: Event.status "stopped" :: r.2.1, r.2.2)

/-- The connection-success markers scanned for on stdout. -/
def isSuccessLine (line : String) : Bool :=
  strIncludes line "login to server success"
    || strIncludes line "start proxy success"

/-- The state the stdout handler touches: the start-attempt-local
`connected` flag and the manager's reconnect attempt counter. -/
structure StdoutState where
  connected : Bool
  reconnectAttempts : Nat
  deriving Repr, DecidableEq

/-- One stdout line: always logged; on a success marker, if not yet
connected, the connected flag is set, the counter resets, and the connected
alert fires. -/
def processStdoutLine (s : StdoutState) (line : String) :
    StdoutState × List Event :=
  if isSuccessLine line then
    if s.connected then (s, [Event.log line])
    else
      ({ connected := true, reconnectAttempts := 0 },
       [Event.log line,
        Event.notify "FRP Connected" "Successfully connected to FRP server"])
  else (s, [Event.log line])

/-- The stdout handler over a sequence of lines. -/
def processStdoutLines : StdoutState → List String → StdoutState × List Event
  | s, [] => (s, [])
  | s, line :: rest =>
    let r1 := processStdoutLine s line
    let r2 := processStdoutLines r1.1 rest
    (r2.1, r1.2 ++ r2.2)

def isConnectedAlert : Event → Bool
  | Event.notify t _ => t == "FRP Connected"
  | _ => false

/-- How many connected alerts a list of events holds. -/
def countConnectedAlerts : List Event → Nat
  | [] => 0
  | e :: rest => (if isConnectedAlert e then 1 else 0) + countConnectedAlerts rest

/-- `FrpcManager.stop`: sets the intentional-stop flag and clears any
pending reconnect timer before anything else; with no process associated it
resolves at once with success after one log line; otherwise it terminates
the process and resolves once the exit event fires (modelled by the resolved
outcome). -/
def stop (st : FrpcState) : FrpcState × List Event × Bool :=
  let st1 :=
    { st with intentionallyStopped := true, reconnectTimerPending := false }
  if st1.processActive then
    ({ st1 with processActive := false },
     [Event.log "[GUI] Stopping frpc...", Event.status "stopped"], true)
  else
    (st1, [Event.log "[GUI] FRP client is not running"], true)

/-- The candidate binary locations, ending with the bare name (PATH lookup). -/
def frpcLocations : List String :=
  ["/usr/local/bin/frpc", "/usr/bin/frpc", "/opt/frp-gui/frpc/frpc", "frpc"]

/-- `FrpcManager.findFrpcBinary`, the filesystem abstracted as the
`existsAt` predicate (`existsSync`): the first location that is the bare
name or exists on disk; falling through the loop still returns the bare
name. -/
def findFrpcBinary (existsAt : String → Bool) : Option String :=
  match frpcLocations.find? (fun loc => loc == "frpc" || existsAt loc) with
  | some loc => some loc
  | none => some "frpc"

/-- Which branch of `start` runs. -/
inductive StartOutcome where
  | alreadyRunning
  | validationFailed (errors : List String)
  | binaryNotFound
  | launched (path : String)
  deriving Repr, DecidableEq

/-- The branch selection of `FrpcManager.start`: already-running check,
validation, then binary lookup. -/
def startOutcome (st : FrpcState) (c : AppConfig)
    (existsAt : String → Bool) : StartOutcome :=
  if st.processActive then .alreadyRunning
  else if !(validateConfig c).1 then .validationFailed (validateConfig c).2
  else
    match findFrpcBinary existsAt with
    | none => .binaryNotFound
    | some p => .launched p

def isBinaryNotFound : StartOutcome → Bool
  | .binaryNotFound => true
  | _ => false

/-- The outcome of one `start` call: resulting state, events emitted,
returned boolean, and the spawn invocation — the binary path and config path
handed to `spawn`, or `none` when nothing was spawned. -/
structure StartResult where
  state : FrpcState
  events : List Event
  ret : Bool
  spawned : Option (String × String)
  deriving Repr, DecidableEq

/-- `FrpcManager.start` up to the point the stream/exit handlers attach;
`cfgPath` is the path `writeFrpcConfig` returns. -/
def start (st : FrpcState) (c : AppConfig) (existsAt : String → Bool)
    (cfgPath : String) : StartResult :=
  match startOutcome st c existsAt with
  | .alreadyRunning =>
    { state := st,
      events := [Event.log "[GUI] FRP client is already running"],
      ret := true, spawned := none }
  | .validationFailed errs =>
    let st1 :=
      { st with reconnectTimerPending := false, intentionallyStopped := false }
    let msg := String.intercalate "; " errs
    { state := { st1 with lastError := some msg },
      events := [Event.error msg], ret := false, spawned := none }
  | .binaryNotFound =>
    let st1 :=
      { st with reconnectTimerPending := false, intentionallyStopped := false }
    { state := { st1 with
        lastError := some "frpc binary not found. Please install FRP." },
      events := [Event.log ("[GUI] Config written to " ++ cfgPath),
        Event.error "frpc binary not found. Please install FRP."],
      ret := false, spawned := none }
  | .launched p =>
    let st1 :=
      { st with reconnectTimerPending := false, intentionallyStopped := false }
    { state := { st1 with processActive := true, lastError := none },
      events := [Event.log ("[GUI] Config written to " ++ cfgPath),
        Event.log ("[GUI] Starting frpc from " ++ p),
        Event.status "running"],
      ret := true, spawned := some (p, cfgPath) }

/-! ### C3: linear backoff and the attempt ceiling -/

/-- C3: with auto-reconnect on and the stop not intentional, an unintended
disconnect with the counter at n-1 < 5 drives the counter to n, marks one
retry timer pending, and schedules exactly one retry after 5000·n ms
(5s/10s/15s/20s/25s); once the counter has reached five, the next disconnect
emits the terminal max-attempts alert and schedules no retry. -/
theorem handleDisconnect_backoff (st : FrpcState)
    (hauto : st.autoReconnect = true)
    (hint : st.intentionallyStopped = false) :
    (st.reconnectAttempts < 5 →
      handleDisconnect st
        = ({ st with
              reconnectAttempts := st.reconnectAttempts + 1,
              reconnectTimerPending := true },
           [Event.log ("[GUI] Attempting reconnect in "
              ++ toString (5000 * (st.reconnectAttempts + 1) / 1000)
              ++ "s (attempt " ++ toString (st.reconnectAttempts + 1) ++ "/"
              ++ toString maxReconnectAttempts ++ ")")],
           some (5000 * (st.reconnectAttempts + 1))))
    ∧ (5 ≤ st.reconnectAttempts →
      handleDisconnect st
        = (st,
           [Event.log ("[GUI] Max reconnect attempts ("
              ++ toString maxReconnectAttempts ++ ") reached"),
            Event.notify "FRP Reconnect Failed"
              "Max reconnection attempts reached"],
           none)) := by
  constructor
  · intro hlt
    have hge : ¬ maxReconnectAttempts ≤ st.reconnectAttempts := by
      rw [maxReconnectAttempts]
      omega
    simp [handleDisconnect, hint, hauto, hge, reconnectDelay]
  · intro hge
    have hle : maxReconnectAttempts ≤ st.reconnectAttempts := by
      rw [maxReconnectAttempts]
      omega
    simp [handleDisconnect, hint, hauto, hle]

def stAtMax : FrpcState := { initialState with reconnectAttempts := 5 }

theorem handleDisconnect_backoff_witness :
    (handleDisconnect initialState
      = ({ initialState with
            reconnectAttempts := initialState.reconnectAttempts + 1,
            reconnectTimerPending := true },
         [Event.log ("[GUI] Attempting reconnect in "
            ++ toString (5000 * (initialState.reconnectAttempts + 1) / 1000)
            ++ "s (attempt " ++ toString (initialState.reconnectAttempts + 1)
            ++ "/" ++ toString maxReconnectAttempts ++ ")")],
         some (5000 * (initialState.reconnectAttempts + 1))))
    ∧ (handleDisconnect stAtMax
      = (stAtMax,
         [Event.log ("[GUI] Max reconnect attempts ("
            ++ toString maxReconnectAttempts ++ ") reached"),
          Event.notify "FRP Reconnect Failed"
            "Max reconnection attempts reached"],
         none)) :=
  ⟨(handleDisconnect_backoff initialState rfl rfl).1 (by decide),
   (handleDisconnect_backoff stAtMax rfl rfl).2 (by decide)⟩

/-! ### C2: spawn failure and the reconnect sub-flow -/

/-- The supervisor state right after a start from the initial state: a
process handle is associated and nothing else has changed. -/
def stFreshRun : FrpcState := { initialState with processActive := true }

/-- C2 counterexample: a spawn failure (the process 'error' event) out of a
fresh start schedules a retry in 5000 ms and drives the reconnect attempt
counter from 0 to 1 — the reconnect sub-flow IS entered from a failed spawn
attempt, contradicting the claim that no retry is scheduled and the counter
stays put. -/
theorem spawn_failure_schedules_retry_counterexample :
    (onProcessError stFreshRun "spawn frpc ENOENT").2.2 = some 5000
    ∧ (onProcessError stFreshRun "spawn frpc ENOENT").1.reconnectAttempts = 1
    ∧ (onProcessError stFreshRun "spawn frpc ENOENT").1.lastError
        = some "Failed to start frpc: spawn frpc ENOENT" := by
  exact ⟨rfl, rfl, rfl⟩

/-- C2 (amended): a spawn failure sets last-error to the spawn message,
reports failure (error then stopped events) — and then runs the same
disconnect handling as an unexpected exit: with auto-reconnect on, the stop
not intentional and the counter below the maximum, the counter increments
and one retry is scheduled (the source's 'error' handler calls
`handleDisconnect`). -/
theorem onProcessError_enters_reconnect (st : FrpcState) (m : String)
    (hauto : st.autoReconnect = true)
    (hint : st.intentionallyStopped = false)
    (hlt : st.reconnectAttempts < 5) :
    (onProcessError st m).1.lastError = some ("Failed to start frpc: " ++ m)
    ∧ (onProcessError st m).1.reconnectAttempts = st.reconnectAttempts + 1
    ∧ (onProcessError st m).2.2 = some (5000 * (st.reconnectAttempts + 1))
    ∧ (onProcessError st m).2.1.take 2
        = [Event.error ("Failed to start frpc: " ++ m),
           Event.status "stopped"] := by
  have h := (handleDisconnect_backoff
    { st with
      lastError := some ("Failed to start frpc: " ++ m),
      processActive := false } hauto hint).1 hlt
  simp only [onProcessError]
  rw [h]
  simp

theorem onProcessError_enters_reconnect_witness :
    (onProcessError stFreshRun "boom").1.lastError
        = some ("Failed to start frpc: " ++ "boom")
    ∧ (onProcessError stFreshRun "boom").1.reconnectAttempts
        = stFreshRun.reconnectAttempts + 1
    ∧ (onProcessError stFreshRun "boom").2.2
        = some (5000 * (stFreshRun.reconnectAttempts + 1))
    ∧ (onProcessError stFreshRun "boom").2.1.take 2
        = [Event.error ("Failed to start frpc: " ++ "boom"),
           Event.status "stopped"] :=
  onProcessError_enters_reconnect stFreshRun "boom" rfl rfl (by decide)

/-! ### C4: one connected alert per start attempt -/

theorem countConnectedAlerts_append (a b : List Event) :
    countConnectedAlerts (a ++ b)
      = countConnectedAlerts a + countConnectedAlerts b := by
  induction a with
  | nil => simp [countConnectedAlerts]
  | cons e rest ih =>
    simp [countConnectedAlerts, ih]
    omega

theorem countConnectedAlerts_logs (lines : List String) :
    countConnectedAlerts (lines.map Event.log) = 0 := by
  induction lines with
  | nil => rfl
  | cons l rest ih =>
    simp [countConnectedAlerts, isConnectedAlert, ih]

/-- Once connected, further lines only log: no more alerts, no state change. -/
theorem processStdoutLines_connected (k : Nat) :
    ∀ lines : List String,
      processStdoutLines { connected := true, reconnectAttempts := k } lines
        = ({ connected := true, reconnectAttempts := k },
           lines.map Event.log) := by
  intro lines
  induction lines with
  | nil => rfl
  | cons line rest ih =>
    have h1 : processStdoutLine
        { connected := true, reconnectAttempts := k } line
        = ({ connected := true, reconnectAttempts := k },
           [Event.log line]) := by
      by_cases h : isSuccessLine line = true
      · simp [processStdoutLine, h]
      · simp [processStdoutLine, h]
    simp [processStdoutLines, h1, ih]

/-- C4: over the stdout lines of one start attempt (the local connected flag
starts false), at least one success-marker line makes exactly one connected
alert fire in total — however many lines match — and leaves the reconnect
attempt counter at zero (it is reset on the first matching line and no
later line touches it). -/
theorem stdout_single_connected_alert (k : Nat) :
    ∀ lines : List String, lines.any isSuccessLine = true →
      countConnectedAlerts
          (processStdoutLines
            { connected := false, reconnectAttempts := k } lines).2 = 1
      ∧ (processStdoutLines
            { connected := false, reconnectAttempts := k } lines).1
          = { connected := true, reconnectAttempts := 0 } := by
  intro lines
  induction lines with
  | nil =>
    intro h
    simp at h
  | cons line rest ih =>
    intro h
    by_cases hl : isSuccessLine line = true
    · have h1 : processStdoutLine
          { connected := false, reconnectAttempts := k } line
          = ({ connected := true, reconnectAttempts := 0 },
             [Event.log line,
              Event.notify "FRP Connected"
                "Successfully connected to FRP server"]) := by
        simp [processStdoutLine, hl]
      have hrest := processStdoutLines_connected 0 rest
      constructor
      · show countConnectedAlerts
          (processStdoutLines
            { connected := false, reconnectAttempts := k }
            (line :: rest)).2 = 1
        simp only [processStdoutLines, h1, hrest]
        rw [countConnectedAlerts_append]
        rw [countConnectedAlerts_logs]
        rfl
      · show (processStdoutLines
            { connected := false, reconnectAttempts := k }
            (line :: rest)).1 = _
        simp only [processStdoutLines, h1, hrest]
    · have h1 : processStdoutLine
          { connected := false, reconnectAttempts := k } line
          = ({ connected := false, reconnectAttempts := k },
             [Event.log line]) := by
        simp [processStdoutLine, hl]
      have hany : rest.any isSuccessLine = true := by
        rw [List.any_cons] at h
        rcases Bool.or_eq_true_iff.mp h with h2 | h2
        · exact absurd h2 hl
        · exact h2
      obtain ⟨hc, hs⟩ := ih hany
      constructor
      · simp only [processStdoutLines, h1]
        rw [countConnectedAlerts_append]
        rw [hc]
        rfl
      · simp only [processStdoutLines, h1]
        exact hs

theorem stdout_single_connected_alert_witness :
    countConnectedAlerts
        (processStdoutLines { connected := false, reconnectAttempts := 3 }
          ["x", "2025 login to server success", "start proxy success [p1]",
           "start proxy success [p2]"]).2 = 1
    ∧ (processStdoutLines { connected := false, reconnectAttempts := 3 }
          ["x", "2025 login to server success", "start proxy success [p1]",
           "start proxy success [p2]"]).1
        = { connected := true, reconnectAttempts := 0 } :=
  stdout_single_connected_alert 3
    ["x", "2025 login to server success", "start proxy success [p1]",
     "start proxy success [p2]"] (by decide)

/-! ### C7: stop cancels reconnection -/

/-- C7: `stop` sets the intentional-stop flag and clears the pending
reconnect timer in every case, and afterwards the disconnect handler can
never schedule a retry (so no automatic start follows a stop); on an idle
supervisor (no associated process) it returns success immediately with only
the not-running log line — no exit or status event is emitted. -/
theorem stop_cancels_reconnect (st : FrpcState) :
    (stop st).1.intentionallyStopped = true
    ∧ (stop st).1.reconnectTimerPending = false
    ∧ handleDisconnect (stop st).1 = ((stop st).1, [], none)
    ∧ (st.processActive = false →
        (stop st).2 = ([Event.log "[GUI] FRP client is not running"], true)) := by
  have hflag : (stop st).1.intentionallyStopped = true := by
    by_cases h : st.processActive <;> simp [stop, h]
  have htimer : (stop st).1.reconnectTimerPending = false := by
    by_cases h : st.processActive <;> simp [stop, h]
  refine ⟨hflag, htimer, ?_, ?_⟩
  · rw [handleDisconnect, hflag]
    simp
  · intro h
    simp [stop, h]

/-! ### C8: validation failure blocks the spawn -/

/-- C8: when configuration validation fails (and no process is already
running), `start` spawns nothing, returns failure, records the error list
joined by "; " as the last error, and leaves no process associated. -/
theorem start_validation_failure (st : FrpcState) (c : AppConfig)
    (existsAt : String → Bool) (cfgPath : String)
    (hp : st.processActive = false) (hv : (validateConfig c).1 = false) :
    (start st c existsAt cfgPath).spawned = none
    ∧ (start st c existsAt cfgPath).ret = false
    ∧ (start st c existsAt cfgPath).state.lastError
        = some (String.intercalate "; " (validateConfig c).2)
    ∧ (start st c existsAt cfgPath).state.processActive = false := by
  have ho : startOutcome st c existsAt
      = StartOutcome.validationFailed (validateConfig c).2 := by
    simp [startOutcome, hp, hv]
  simp [start, ho, hp]

/-- The configuration of the C8 scenario: empty server address, port 7000,
auth token "t". -/
def cfgNoServer : AppConfig :=
  { serverAddr := "", serverPort := 7000, authToken := "t",
    remotePortMin := 6000, remotePortMax := 6100, autoStart := false,
    tunnels := [] }

def allPathsMissing : String → Bool := fun _ => false

theorem start_validation_failure_witness :
    validateConfig cfgNoServer = (false, ["Server address is required"])
    ∧ ((start initialState cfgNoServer allPathsMissing "/cfg/frpc.toml").spawned
        = none
      ∧ (start initialState cfgNoServer allPathsMissing "/cfg/frpc.toml").ret
        = false
      ∧ (start initialState cfgNoServer allPathsMissing
          "/cfg/frpc.toml").state.lastError
        = some (String.intercalate "; " (validateConfig cfgNoServer).2)
      ∧ (start initialState cfgNoServer allPathsMissing
          "/cfg/frpc.toml").state.processActive = false) :=
  ⟨rfl, start_validation_failure initialState cfgNoServer allPathsMissing
    "/cfg/frpc.toml" rfl rfl⟩

/-! ### C9: the binary locator cannot fail -/

/-- C9 counterexample: even on a filesystem where no candidate location
exists at all, the locator still resolves — to the bare PATH name — instead
of returning the unresolved result the claim requires to be possible. -/
theorem findFrpcBinary_counterexample :
    findFrpcBinary allPathsMissing = some "frpc" := rfl

/-- C9 (amended): `findFrpcBinary` always resolves — its candidate list ends
with the bare name "frpc", which passes its own test, and even the
fall-through return is "frpc", never null — so the binary-not-found branch
of `start` is unreachable: for every state, configuration and filesystem,
`start` never takes the binaryNotFound outcome. -/
theorem findFrpcBinary_always_resolves (existsAt : String → Bool) :
    (findFrpcBinary existsAt).isSome = true
    ∧ ∀ (st : FrpcState) (c : AppConfig),
        isBinaryNotFound (startOutcome st c existsAt) = false := by
  have hsome : (findFrpcBinary existsAt).isSome = true := by
    cases h : frpcLocations.find? (fun loc => loc == "frpc" || existsAt loc) with
    | none => simp [findFrpcBinary, h]
    | some l => simp [findFrpcBinary, h]
  refine ⟨hsome, ?_⟩
  intro st c
  by_cases hp : st.processActive
  · simp [startOutcome, hp, isBinaryNotFound]
  · by_cases hv : (validateConfig c).1 = true
    · cases hb : findFrpcBinary existsAt with
      | none =>
        rw [hb] at hsome
        simp at hsome
      | some p => simp [startOutcome, hp, hv, hb, isBinaryNotFound]
    · simp [startOutcome, hp, hv, isBinaryNotFound]

end FrpGui
